import Mathlib

/-!
Verification development for the response-normalization and heuristic-fallback
engine of `src/utils/neuralseek.ts`.

The TypeScript source is shallowly embedded: JavaScript numbers are modelled as
exact rationals (`ℚ`; the source only ever manipulates finite doubles and
guards the rest behind `Number.isFinite`), JavaScript objects as ordered
association lists, and the untyped agent payloads as the inductive `JsValue`.
Fallible operations return `Option`.  Platform builtins (`Number(..)`,
`JSON.parse`, `toFixed`, `toString`) are modelled by executable Lean functions
on the fragment of their behaviour the source exercises (decimal numerals,
plain JSON; hexadecimal/exponent numerals and `\u` escapes are outside the
model).
-/

namespace NeuralSeek

attribute [local semireducible] Rat.ofScientific Rat.mul Rat.inv Rat.add Rat.sub

/-- Modelled from the spec: the `Sentiment` type is imported by the source from
`../types`, a module that is not under `src/`; the spec defines it as the enum
with members Positive, Negative and Neutral. -/
inductive Sentiment where
  | Positive : Sentiment
  | Negative : Sentiment
  | Neutral : Sentiment
deriving DecidableEq

/-- Untyped JavaScript values as delivered by the agent boundary.  `num` holds
a finite double (modelled exactly as a rational); `undef` is JavaScript
`undefined`, distinct from `null`. -/
inductive JsValue where
  | str : String → JsValue
  | num : ℚ → JsValue
  | bool : Bool → JsValue
  | null : JsValue
  | undef : JsValue
  | arr : List JsValue → JsValue
  | obj : List (String × JsValue) → JsValue

/-- A JavaScript object: ordered association list of fields.  This is the
embedding of the source type `NeuralSeekVariableMap = Record<string, unknown>`. -/
abbrev JsObj := List (String × JsValue)

/-- Property read `o[k]` on a JavaScript object: first entry with the key. -/
def objLookup (o : JsObj) (k : String) : Option JsValue :=
  match o with
  | [] => none
  | (k1, v) :: rest => if k1 = k then some v else objLookup rest k

/-- The JavaScript `k in o` test. -/
def hasKey (o : JsObj) (k : String) : Bool :=
  match o with
  | [] => false
  | (k1, _) :: rest => k1 == k || hasKey rest k

/-- Property write `o[k] = v` on a JavaScript object: overwrite in place if the
key exists, otherwise append (insertion order is preserved, as in JS). -/
def objSet (o : JsObj) (k : String) (v : JsValue) : JsObj :=
  if hasKey o k then o.map (fun p => if p.1 = k then (k, v) else p)
  else o ++ [(k, v)]

/-- Object spread `(\x7b...base, ...entries\x7d)` / assignment loops: write every
entry of `entries` into `base` in order, last write winning. -/
def spreadInto (base : JsObj) (entries : List (String × JsValue)) : JsObj :=
  entries.foldl (fun acc p => objSet acc p.1 p.2) base

/-- Property read through the map, yielding `undefined` for a missing key, as
JavaScript member access does. -/
def getVar (o : JsObj) (k : String) : JsValue :=
  (objLookup o k).getD JsValue.undef

/-- Optional chaining `o?.k` for an optional object. -/
def optField (o : Option JsObj) (k : String) : JsValue :=
  match o with
  | some m => getVar m k
  | none => JsValue.undef

/-- Nullish test used by the `??` operator. -/
def isNullish : JsValue → Bool
  | JsValue.null => true
  | JsValue.undef => true
  | _ => false

/-- The JavaScript `a ?? b` operator on payload values. -/
def coalesce (a b : JsValue) : JsValue :=
  if isNullish a then b else a

/-- First-some choice, the embedding of `a ?? b` on `T | undefined` values. -/
def orOpt {α : Type} (a b : Option α) : Option α :=
  match a with
  | some v => some v
  | none => b

/-- Keys of an object are pairwise distinct (true of every real JS object). -/
def keysNodup (o : JsObj) : Prop :=
  (o.map Prod.fst).Nodup

instance (o : JsObj) : Decidable (keysNodup o) := by
  unfold keysNodup; infer_instance

/- ### String and number builtins -/

/-- Digit run at the front of a character list. -/
def takeDigits (cs : List Char) : List Char × List Char :=
  (cs.takeWhile Char.isDigit, cs.dropWhile Char.isDigit)

/-- Numeric value of a digit run. -/
def digitsToNat (ds : List Char) : ℕ :=
  ds.foldl (fun a c => a * 10 + (c.toNat - 48)) 0

/-- Decimal numeral parser behind the `Number(..)` model: optional sign, then
digits with an optional fractional part, consuming the whole input. -/
def parseDecimalCore (cs : List Char) : Option ℚ :=
  let signed : ℚ × List Char :=
    match cs with
    | '-' :: r => (-1, r)
    | '+' :: r => (1, r)
    | r => (1, r)
  let sign := signed.1
  let ip := takeDigits signed.2
  match ip.2 with
  | [] => if ip.1 = [] then none else some (sign * digitsToNat ip.1)
  | '.' :: rest2 =>
    let fp := takeDigits rest2
    if fp.2 = [] ∧ (ip.1 ≠ [] ∨ fp.1 ≠ []) then
      some (sign * ((digitsToNat ip.1 : ℚ) + (digitsToNat fp.1 : ℚ) / (10 : ℚ) ^ fp.1.length))
    else none
  | _ => none

/-- Model of `String.prototype.trim` (kernel-computable, unlike the core
`String.trim`). -/
def jsTrim (s : String) : String :=
  String.mk (((s.toList.dropWhile Char.isWhitespace).reverse.dropWhile
    Char.isWhitespace).reverse)

/-- Model of the JavaScript `Number(string)` conversion on the decimal
fragment: surrounding whitespace ignored, empty string is `0`, and a string
that is not a numeral is `NaN` (here `none`). -/
def jsNumber (s : String) : Option ℚ :=
  let t := jsTrim s
  if t = "" then some 0 else parseDecimalCore t.toList

/-- Left-pad a digit list so a decimal point can be inserted `f` places in. -/
def padDigits (f : ℕ) (ds : List Char) : List Char :=
  if ds.length ≤ f then List.replicate (f + 1 - ds.length) '0' ++ ds else ds

/-- Model of `Number.prototype.toFixed(f)`: round to `f` decimals, ties away
from zero on the magnitude. -/
def toFixed (f : ℕ) (x : ℚ) : String :=
  let sign := if x < 0 then "-" else ""
  let n := (⌊|x| * (10 : ℚ) ^ f + 1 / 2⌋).toNat
  if f = 0 then sign ++ toString n
  else
    let ds := padDigits f (toString n).toList
    let k := ds.length - f
    sign ++ String.mk (ds.take k) ++ "." ++ String.mk (ds.drop k)

/-- Model of `Number.prototype.toString()` (and `String(number)`): integers
print without a point, terminating decimals print exactly (every JS double has
a terminating expansion; the `none` fallback prints a fraction and is outside
the image of the source pipeline). -/
def ratToString (q : ℚ) : String :=
  if q.den = 1 then toString q.num
  else
    let sign := if q < 0 then "-" else ""
    let a := |q|
    match (List.range 40).find? (fun f => (a * (10 : ℚ) ^ f).den == 1) with
    | some f =>
      let ds := padDigits f (toString (a * (10 : ℚ) ^ f).num.toNat).toList
      let k := ds.length - f
      sign ++ String.mk (ds.take k) ++ "." ++ String.mk (ds.drop k)
    | none => sign ++ toString a.num ++ "/" ++ toString a.den

/-- Does `p` occur at the front of `cs`? -/
def prefixMatches (p cs : List Char) : Bool :=
  match p, cs with
  | [], _ => true
  | _ :: _, [] => false
  | a :: p1, b :: cs1 => a == b && prefixMatches p1 cs1

/-- Does `needle` occur somewhere in `cs`?  (Model of `String.includes`.) -/
def listContainsSub (needle cs : List Char) : Bool :=
  match cs with
  | [] => needle.isEmpty
  | _ :: rest => prefixMatches needle cs || listContainsSub needle rest

/-- Model of `hay.includes(needle)`. -/
def strContains (hay needle : String) : Bool :=
  listContainsSub needle.toList hay.toList

/-- Model of `String.prototype.toLowerCase`. -/
def lowerStr (s : String) : String :=
  String.mk (s.toList.map Char.toLower)

/-- Model of `String.prototype.toUpperCase`. -/
def upperStr (s : String) : String :=
  String.mk (s.toList.map Char.toUpper)

/-- Model of `String.prototype.startsWith`. -/
def strStartsWith (s p : String) : Bool :=
  prefixMatches p.toList s.toList

/-- Regex word character class `\w`. -/
def isWordChar (c : Char) : Bool :=
  c.isDigit || (97 ≤ c.toNat && c.toNat ≤ 122) || (65 ≤ c.toNat && c.toNat ≤ 90) || c == '_'

/-- Word-boundary condition to the left of a match position. -/
def boundaryBefore : Option Char → Bool
  | none => true
  | some c => !(isWordChar c)

/-- Word-boundary condition to the right of a match. -/
def boundaryAfterL : List Char → Bool
  | [] => true
  | c :: _ => !(isWordChar c)

/-- Scan for `w` delimited by word boundaries, carrying the previous character. -/
def hasWordFrom (w : List Char) (prev : Option Char) (cs : List Char) : Bool :=
  (boundaryBefore prev && prefixMatches w cs && boundaryAfterL (cs.drop w.length)) ||
  (match cs with
   | [] => false
   | c :: rest => hasWordFrom w (some c) rest)

/-- Model of the regex test `\bw\b` on `hay` (for `w` made of word characters). -/
def hasWord (hay w : String) : Bool :=
  hasWordFrom w.toList none hay.toList

/- ### JSON.parse model -/

/-- JSON whitespace skipping. -/
def skipWsJ (cs : List Char) : List Char :=
  cs.dropWhile (fun c => c == ' ' || c == '\t' || c == '\n' || c == '\r')

/-- Single-character JSON escapes (`\u` escapes are outside the model). -/
def jsonEscape : Char → Option Char
  | 'n' => some (Char.ofNat 10)
  | 't' => some (Char.ofNat 9)
  | 'r' => some (Char.ofNat 13)
  | 'b' => some (Char.ofNat 8)
  | 'f' => some (Char.ofNat 12)
  | '/' => some (Char.ofNat 47)
  | '\\' => some (Char.ofNat 92)
  | '"' => some (Char.ofNat 34)
  | _ => none

/-- Body of a JSON string literal, after the opening quote; returns the
decoded characters and the input after the closing quote. -/
def parseJsonStringBody : List Char → Option (List Char × List Char)
  | [] => none
  | '\\' :: e :: rest =>
    match jsonEscape e with
    | none => none
    | some c =>
      match parseJsonStringBody rest with
      | none => none
      | some (s, r) => some (c :: s, r)
  | '"' :: rest => some ([], rest)
  | c :: rest =>
    match parseJsonStringBody rest with
    | none => none
    | some (s, r) => some (c :: s, r)

/-- Exponent suffix of a JSON number. -/
def parseExpPart (v : ℚ) (cs : List Char) : Option (ℚ × List Char) :=
  let se : Bool × List Char :=
    match cs with
    | '+' :: r => (false, r)
    | '-' :: r => (true, r)
    | r => (false, r)
  let ds := takeDigits se.2
  if ds.1 = [] then none
  else
    let e := digitsToNat ds.1
    some (if se.1 then v / (10 : ℚ) ^ e else v * (10 : ℚ) ^ e, ds.2)

/-- JSON number at the front of the input. -/
def parseJsonNumberAt (cs : List Char) : Option (ℚ × List Char) :=
  let signed : ℚ × List Char :=
    match cs with
    | '-' :: r => (-1, r)
    | r => (1, r)
  let ip := takeDigits signed.2
  if ip.1 = [] then none
  else
    let base : ℚ := digitsToNat ip.1
    let step2 : Option (ℚ × List Char) :=
      match ip.2 with
      | '.' :: r =>
        let fp := takeDigits r
        if fp.1 = [] then none
        else some (base + (digitsToNat fp.1 : ℚ) / (10 : ℚ) ^ fp.1.length, fp.2)
      | r => some (base, r)
    match step2 with
    | none => none
    | some (v, rest2) =>
      match rest2 with
      | 'e' :: r => (parseExpPart v r).map (fun p => (signed.1 * p.1, p.2))
      | 'E' :: r => (parseExpPart v r).map (fun p => (signed.1 * p.1, p.2))
      | r => some (signed.1 * v, r)

/-- Recursive JSON value parser (fuel-indexed).  A non-empty member/element
tail `, rest` is parsed by re-entering the parser on a rebuilt composite
`\x7b rest` / `[ rest`, which yields the remaining members/elements. -/
def parseJsonV : ℕ → List Char → Option (JsValue × List Char)
  | 0, _ => none
  | fuel + 1, cs =>
    match skipWsJ cs with
    | '{' :: rest =>
      match skipWsJ rest with
      | '}' :: r2 => some (JsValue.obj [], r2)
      | '"' :: r2 =>
        match parseJsonStringBody r2 with
        | none => none
        | some (key, r3) =>
          match skipWsJ r3 with
          | ':' :: r4 =>
            match parseJsonV fuel r4 with
            | none => none
            | some (v, r5) =>
              match skipWsJ r5 with
              | '}' :: r6 => some (JsValue.obj (objSet [] (String.mk key) v), r6)
              | ',' :: r6 =>
                match parseJsonV fuel ('{' :: r6) with
                | some (JsValue.obj fields, r7) =>
                  some (JsValue.obj (spreadInto (objSet [] (String.mk key) v) fields), r7)
                | _ => none
              | _ => none
          | _ => none
      | _ => none
    | '[' :: rest =>
      match skipWsJ rest with
      | ']' :: r2 => some (JsValue.arr [], r2)
      | _ =>
        match parseJsonV fuel rest with
        | none => none
        | some (v, r3) =>
          match skipWsJ r3 with
          | ']' :: r4 => some (JsValue.arr [v], r4)
          | ',' :: r4 =>
            match parseJsonV fuel ('[' :: r4) with
            | some (JsValue.arr elems, r5) => some (JsValue.arr (v :: elems), r5)
            | _ => none
          | _ => none
    | '"' :: rest =>
      match parseJsonStringBody rest with
      | none => none
      | some (s, r) => some (JsValue.str (String.mk s), r)
    | 't' :: 'r' :: 'u' :: 'e' :: r => some (JsValue.bool true, r)
    | 'f' :: 'a' :: 'l' :: 's' :: 'e' :: r => some (JsValue.bool false, r)
    | 'n' :: 'u' :: 'l' :: 'l' :: r => some (JsValue.null, r)
    | rest => (parseJsonNumberAt rest).map (fun p => (JsValue.num p.1, p.2))

/-- Model of `JSON.parse` (returning `none` where the builtin throws). -/
def jsonParse (s : String) : Option JsValue :=
  let cs := s.toList
  match parseJsonV (2 * cs.length + 4) cs with
  | none => none
  | some (v, rest) => if skipWsJ rest = [] then some v else none

/-- Model of `String(value)` (fuel-indexed for nested arrays). -/
def jsToStringF : ℕ → JsValue → String
  | _, JsValue.str s => s
  | _, JsValue.num q => ratToString q
  | _, JsValue.bool b => if b then "true" else "false"
  | _, JsValue.null => "null"
  | _, JsValue.undef => "undefined"
  | _, JsValue.obj _ => "[object Object]"
  | 0, JsValue.arr _ => ""
  | fuel + 1, JsValue.arr xs =>
    String.intercalate "," (xs.map (fun e => if isNullish e then "" else jsToStringF fuel e))

/-- Model of the JavaScript `String(value)` conversion (arrays nested deeper
than the fixed fuel are outside the model). -/
def jsToString (v : JsValue) : String :=
  jsToStringF 1000000 v

/- ### Scalar extractors (`neuralseek.ts` lines 69-294) -/

/-- Leading `[\s-•]+` strip applied to each split fragment. -/
def dropLeadingBullets (s : String) : String :=
  String.mk (s.toList.dropWhile (fun c => c.isWhitespace || c == '-' || c == '•'))

/-- Split on `\r?\n`, the bullet character, or `"- "`, keeping empty fragments
(they are filtered afterwards), scanning left to right. -/
def splitDelimsGo : List Char → List Char → List String → List String
  | [], cur, acc => acc ++ [String.mk cur.reverse]
  | '\r' :: '\n' :: rest, cur, acc => splitDelimsGo rest [] (acc ++ [String.mk cur.reverse])
  | '\n' :: rest, cur, acc => splitDelimsGo rest [] (acc ++ [String.mk cur.reverse])
  | '•' :: rest, cur, acc => splitDelimsGo rest [] (acc ++ [String.mk cur.reverse])
  | '-' :: ' ' :: rest, cur, acc => splitDelimsGo rest [] (acc ++ [String.mk cur.reverse])
  | c :: rest, cur, acc => splitDelimsGo rest (c :: cur) acc

/-- Model of `split(/\r?\n|•|- |•/g)`. -/
def splitDelims (s : String) : List String :=
  splitDelimsGo s.toList [] []

/-- Stringify, trim and drop empty entries of a JS array (source line 71/81). -/
def cleanEntries (xs : List JsValue) : List String :=
  ((xs.map jsToString).map jsTrim).filter (fun e => !(e == ""))

/-- Embedding of `parseArrayValue` (source lines 69-94). -/
def parseArrayValue (value : JsValue) : List String :=
  match value with
  | JsValue.arr xs => cleanEntries xs
  | JsValue.str s =>
    let trimmed := jsTrim s
    if trimmed = "" then []
    else
      match jsonParse trimmed with
      | some (JsValue.arr xs) => cleanEntries xs
      | _ =>
        ((splitDelims trimmed).map (fun e => jsTrim (dropLeadingBullets e))).filter
          (fun e => !(e == ""))
  | _ => []

/-- Character strip `replace(/[, $%()]/g, '')` in `parseNumberValue`. -/
def stripChars (s : String) : String :=
  String.mk (s.toList.filter
    (fun c => !(c == ',' || c == ' ' || c == '$' || c == '%' || c == '(' || c == ')')))

/-- Regex test `/^\s*\(/`. -/
def startsWithParen (s : String) : Bool :=
  match s.toList.dropWhile Char.isWhitespace with
  | '(' :: _ => true
  | _ => false

/-- Regex test `/\)\s*$/`. -/
def endsWithParen (s : String) : Bool :=
  match s.toList.reverse.dropWhile Char.isWhitespace with
  | ')' :: _ => true
  | _ => false

/-- Embedding of `parseNumberValue` (source lines 96-109). -/
def parseNumberValue (value : JsValue) : Option ℚ :=
  match value with
  | JsValue.num q => some q
  | JsValue.str s =>
    let containsPercent := strContains s "%"
    let wrappedNegative := startsWithParen s && endsWithParen s
    let cleaned := jsTrim (stripChars s)
    if cleaned = "" then none
    else
      match jsNumber cleaned with
      | none => none
      | some parsed =>
        let signedValue := if wrappedNegative then -parsed else parsed
        some (if containsPercent then signedValue / 100 else signedValue)
  | _ => none

/-- Embedding of `getStringValue` (source lines 111-112). -/
def getStringValue (value : JsValue) : Option String :=
  match value with
  | JsValue.str s => if jsTrim s = "" then none else some (jsTrim s)
  | _ => none

/-- Embedding of `toDisplayString` (source lines 114-123). -/
def toDisplayString (value : JsValue) : Option String :=
  match value with
  | JsValue.num q => some (ratToString q)
  | JsValue.str s => if jsTrim s = "" then none else some (jsTrim s)
  | _ => none

/-- Embedding of `normalizeVariableKeys` (source lines 128-137): copy the map,
then for each entry in order add the lowercased key if it is not yet present. -/
def normalizeVariableKeys (input : JsObj) : JsObj :=
  input.foldl
    (fun acc p => if hasKey acc (lowerStr p.1) then acc else acc ++ [(lowerStr p.1, p.2)])
    input

/-- Embedding of `normalizeRecord` (source lines 139-142); the `isRecord`
guard (object, non-null, non-array) is the `obj` constructor. -/
def normalizeRecord (value : JsValue) : Option JsObj :=
  match value with
  | JsValue.obj o => some (normalizeVariableKeys o)
  | _ => none

/-- Fence characters of the `stripFence` regex (backtick and apostrophe). -/
def fenceChar (c : Char) : Bool :=
  c == Char.ofNat 96 || c == Char.ofNat 39

/-- Optional case-insensitive `\s*json` tag strip after a fence opener. -/
def dropJsonTag (body : List Char) : List Char :=
  let w := body.dropWhile Char.isWhitespace
  if (w.take 4).map Char.toLower = ['j', 's', 'o', 'n'] then w.drop 4 else body

/-- Embedding of `stripFence` (source lines 144-155). -/
def stripFence (input : String) : String :=
  let trimmed := jsTrim input
  let cs := trimmed.toList
  if (cs.take 3).length = 3 ∧ (cs.take 3).all fenceChar then
    if cs.length ≥ 6 ∧ cs.drop (cs.length - 3) = cs.take 3 then
      jsTrim (String.mk (dropJsonTag ((cs.drop 3).take (cs.length - 6))))
    else jsTrim (String.mk (dropJsonTag (cs.drop 3)))
  else trimmed

/-- The `parseCandidate` closure of `extractJsonObjectFromAnswer`. -/
def parseCandidate (text : String) : Option JsObj :=
  let trimmed := jsTrim text
  if trimmed = "" then none
  else
    match jsonParse trimmed with
    | some (JsValue.obj o) => some o
    | _ => none

/-- Embedding of `extractJsonObjectFromAnswer` (source lines 157-185). -/
def extractJsonObjectFromAnswer (answer : Option String) : Option JsObj :=
  match answer with
  | none => none
  | some a =>
    if a = "" then none
    else
      let stripped := stripFence a
      if stripped = "" then none
      else
        match parseCandidate stripped with
        | some o => some o
        | none =>
          let cs := stripped.toList
          match cs.findIdx? (fun c => c == '{'),
              (cs.reverse.findIdx? (fun c => c == '}')).map (fun i => cs.length - 1 - i) with
          | some i, some j =>
            if j > i then parseCandidate (String.mk ((cs.drop i).take (j + 1 - i)))
            else none
          | _, _ => none

/-- Set-insert preserving first-seen order. -/
def pushUnique (seen : List String) (entry : String) : List String :=
  if seen.contains entry then seen else seen ++ [entry]

/-- Embedding of `collectUniqueList` (source lines 187-197). -/
def collectUniqueList (sources : List JsValue) : List String :=
  sources.foldl (fun seen source => (parseArrayValue source).foldl pushUnique seen) []

/-- Embedding of `pickFirstNumber` (source lines 199-205). -/
def pickFirstNumber (values : List JsValue) : Option ℚ :=
  values.findSome? parseNumberValue

/-- Embedding of `pickFirstString` (source lines 207-213). -/
def pickFirstString (values : List JsValue) : Option String :=
  values.findSome? getStringValue

/-- Grade table of `scoreFromGrade` (source lines 218-233). -/
def gradeTable (g : String) : Option ℚ :=
  if g = "A+" then some 0.95
  else if g = "A" then some 0.9
  else if g = "A-" then some 0.87
  else if g = "B+" then some 0.82
  else if g = "B" then some 0.76
  else if g = "B-" then some 0.72
  else if g = "C+" then some 0.66
  else if g = "C" then some 0.58
  else if g = "C-" then some 0.52
  else if g = "D+" then some 0.46
  else if g = "D" then some 0.4
  else if g = "D-" then some 0.35
  else if g = "E" then some 0.3
  else if g = "F" then some 0.2
  else none

/-- Embedding of `scoreFromGrade` (source lines 215-235). -/
def scoreFromGrade (grade : Option String) : Option ℚ :=
  match grade with
  | none => none
  | some g => if g = "" then none else gradeTable (upperStr (jsTrim g))

/-- Embedding of `statusFromGrade` (source lines 237-244). -/
def statusFromGrade (grade : Option String) : Option String :=
  match grade with
  | none => none
  | some g =>
    if g = "" then none
    else
      let normalized := upperStr (jsTrim g)
      if strStartsWith normalized "A" then some "Strong"
      else if strStartsWith normalized "B" then some "Stable"
      else if strStartsWith normalized "C" then some "Watch"
      else some "At Risk"

/-- Embedding of `normalizeSentimentLabel` (source lines 246-252). -/
def normalizeSentimentLabel (input : String) : Sentiment :=
  let lower := lowerStr input
  if strContains lower "positive" then Sentiment.Positive
  else if strContains lower "negative" then Sentiment.Negative
  else if strContains lower "neutral" then Sentiment.Neutral
  else Sentiment.Neutral

/-- Embedding of `defaultSentimentScore` (source lines 254-258). -/
def defaultSentimentScore (label : Sentiment) : ℚ :=
  if label = Sentiment.Positive then 0.6
  else if label = Sentiment.Negative then -0.6
  else 0

/-- Result shape of `parseSentimentValue`. -/
structure SentimentResult where
  label : Sentiment
  score : ℚ

/-- Tail of the regex `-?\d+(?:\.\d+)?`: mandatory digits, optional fraction. -/
def plainNumTail (l : List Char) : Option (List Char) :=
  let ds := takeDigits l
  if ds.1.isEmpty then none
  else
    let fr : List Char × List Char :=
      match ds.2 with
      | '.' :: r =>
        let fs := takeDigits r
        if fs.1.isEmpty then ([], ds.2) else ('.' :: fs.1, fs.2)
      | _ => ([], ds.2)
    some (ds.1 ++ fr.1)

/-- Match of `-?\d+(?:\.\d+)?` anchored at the current position. -/
def matchPlainNumberAt (cs : List Char) : Option (List Char) :=
  match cs with
  | '-' :: rest => (plainNumTail rest).map (fun t => '-' :: t)
  | _ => plainNumTail cs

/-- Leftmost match of `-?\d+(?:\.\d+)?`. -/
def firstPlainNumber : List Char → Option (List Char)
  | [] => none
  | c :: rest =>
    match matchPlainNumberAt (c :: rest) with
    | some t => some t
    | none => firstPlainNumber rest

/-- The `value.match` search for the regex `-?\d+(?:\.\d+)?` followed by
`Number(..)`, as in the string branch of `parseSentimentValue`. -/
def firstNumberMatch (s : String) : Option ℚ :=
  (firstPlainNumber s.toList).bind (fun t => jsNumber (String.mk t))

/-- Embedding of `parseSentimentValue` (source lines 260-286). -/
def parseSentimentValue (value : JsValue) : SentimentResult :=
  match value with
  | JsValue.obj o =>
    match getVar o "label" with
    | JsValue.str lab =>
      let label := normalizeSentimentLabel lab
      let score := (parseNumberValue (getVar o "score")).getD (defaultSentimentScore label)
      ⟨label, score⟩
    | _ => ⟨Sentiment.Neutral, 0⟩
  | JsValue.str s =>
    let label := normalizeSentimentLabel s
    let score := (firstNumberMatch s).getD (defaultSentimentScore label)
    ⟨label, score⟩
  | _ => ⟨Sentiment.Neutral, 0⟩

/-- Embedding of `NeuralSeekRawResponse` (source lines 10-16); the unused
`sourceParts`/`render` channels are omitted, and the source field `variables`
is called `vars` here because `variables` is a reserved word in Lean. -/
structure NeuralSeekRawResponse where
  answer : Option String
  vars : Option JsObj
  variablesExpanded : Option (List (String × JsValue))

/-- Embedding of `extractVariables` (source lines 288-294): copy `variables`,
then assign each `variablesExpanded` entry in order (last write wins). -/
def extractVariables (raw : NeuralSeekRawResponse) : JsObj :=
  spreadInto (spreadInto [] (raw.vars.getD [])) (raw.variablesExpanded.getD [])

/- ### Financial health report from an agent response (source lines 394-531) -/

/-- Embedding of `FinancialHealthInput` (source lines 31-37). -/
structure FinancialHealthInput where
  companyName : String
  reportingPeriod : Option String
  balanceSheet : String
  incomeStatement : String
  cashflowStatement : String

/-- Embedding of `FinancialHealthReport` (source lines 39-52). -/
structure FinancialHealthReport where
  companyName : String
  reportingPeriod : Option String
  summary : String
  status : String
  score : ℚ
  strengths : List String
  risks : List String
  recommendations : List String
  liquiditySignal : Option String
  profitabilitySignal : Option String
  runwaySignal : Option String
  rawAnswer : Option String

/-- Status derived from the numeric score (`deriveHealthStatus` without a
fallback, source lines 404-408). -/
def statusFromScore (score : Option ℚ) : String :=
  match score with
  | none => "Unknown"
  | some s =>
    if s ≥ 0.75 then "Strong"
    else if s ≥ 0.55 then "Stable"
    else if s ≥ 0.35 then "Watch"
    else "At Risk"

/-- Embedding of `deriveHealthStatus` (source lines 402-409); a truthy
(non-empty) fallback string is returned unchanged. -/
def deriveHealthStatus (score : Option ℚ) (fallback : Option String) : String :=
  match fallback with
  | some f => if f = "" then statusFromScore score else f
  | none => statusFromScore score

/-- The `answer` channel viewed as an untyped value (`undefined` if absent). -/
def answerValue (raw : NeuralSeekRawResponse) : JsValue :=
  match raw.answer with
  | some s => JsValue.str s
  | none => JsValue.undef

/-- JSON object recovered from the free-text answer, or the empty object
(the `extractJsonObjectFromAnswer(raw.answer) ?? \x7b\x7d` step of line 421). -/
def answerObject (raw : NeuralSeekRawResponse) : JsObj :=
  (extractJsonObjectFromAnswer raw.answer).getD []

/-- The object-spread merge on source lines 419-422, before key
normalization: explicit variables first, JSON-from-answer spread after. -/
def preNormalizedVariables (raw : NeuralSeekRawResponse) : JsObj :=
  spreadInto (extractVariables raw) (answerObject raw)

/-- The normalized lookup table built on source lines 419-422. -/
def responseVariables (raw : NeuralSeekRawResponse) : JsObj :=
  normalizeVariableKeys (preNormalizedVariables raw)

/-- Pure part of `runFinancialHealthAgent` (source lines 411-531): everything
after the `callMaistro` network boundary has produced a raw response. -/
def financialReportFromResponse (input : FinancialHealthInput)
    (raw : NeuralSeekRawResponse) : FinancialHealthReport :=
  let vars := responseVariables raw
  let keyRatios := normalizeRecord (getVar vars "keyratios")
  let optionalInsights :=
    normalizeRecord (coalesce (getVar vars "optionalinsights") (getVar vars "insights"))
  let futurePlan :=
    normalizeRecord (coalesce (optField optionalInsights "futureplan") (getVar vars "futureplan"))
  let grade := pickFirstString [getVar vars "healthgrade", getVar vars "grade"]
  let score :=
    orOpt
      (pickFirstNumber
        [getVar vars "healthScore", getVar vars "overallHealthScore",
         getVar vars "healthscore", getVar vars "overallhealthscore", getVar vars "score"])
      (scoreFromGrade grade)
  let summary :=
    (pickFirstString
      [getVar vars "healthSummary", getVar vars "healthsummary", getVar vars "summary",
       getVar vars "overview", getVar vars "analysis", answerValue raw]).getD
      "NeuralSeek did not return a summary."
  let strengths :=
    collectUniqueList
      [getVar vars "strengths", getVar vars "highlights", getVar vars "positives",
       optField keyRatios "strengths", optField optionalInsights "strengths"]
  let risks :=
    collectUniqueList
      [getVar vars "risks", getVar vars "riskalerts", getVar vars "concerns",
       getVar vars "weaknesses", optField optionalInsights "financialredflags",
       optField optionalInsights "redflags"]
  let recommendationSources :=
    [getVar vars "recommendations", getVar vars "improvementactions",
     getVar vars "nextsteps", optField optionalInsights "recommendations"] ++
    (match futurePlan with
     | some fp =>
       [getVar fp "shorttermgoals", getVar fp "mediumtermgoals", getVar fp "longtermgoals"]
     | none => [])
  let recommendations := collectUniqueList recommendationSources
  let liquidityFromRatios :=
    orOpt (toDisplayString (optField keyRatios "currentratio"))
      (toDisplayString (optField keyRatios "quickratio"))
  let profitabilityFromRatios :=
    orOpt (toDisplayString (optField keyRatios "netprofitmargin"))
      (orOpt (toDisplayString (optField keyRatios "operatingmargin"))
        (toDisplayString (optField keyRatios "ebitdamargin")))
  let runwayFromRatios :=
    orOpt (toDisplayString (optField keyRatios "freecashflow"))
      (toDisplayString (optField optionalInsights "runwaysignal"))
  let explicitStatus :=
    pickFirstString
      [getVar vars "healthstatus", getVar vars "status", getVar vars "financialhealth"]
  let fallbackStatus := orOpt explicitStatus (statusFromGrade grade)
  { companyName := input.companyName
    reportingPeriod := input.reportingPeriod
    summary := summary
    status := deriveHealthStatus score fallbackStatus
    score := score.getD 0
    strengths := strengths
    risks := risks
    recommendations := recommendations
    liquiditySignal :=
      orOpt
        (getStringValue
          (coalesce (coalesce (getVar vars "liquiditySignal") (getVar vars "liquidity"))
            (getVar vars "cash")))
        (liquidityFromRatios.map (fun v => "Current ratio " ++ v))
    profitabilitySignal :=
      orOpt
        (getStringValue
          (coalesce (coalesce (getVar vars "profitabilitySignal") (getVar vars "profitability"))
            (getVar vars "marginTrend")))
        (profitabilityFromRatios.map (fun v => "Profitability " ++ v))
    runwaySignal :=
      orOpt
        (getStringValue
          (coalesce (coalesce (getVar vars "runwaySignal") (getVar vars "cashRunway"))
            (getVar vars "burn")))
        (runwayFromRatios.map (fun v => "Free cash flow " ++ v))
    rawAnswer := raw.answer }

/- ### Heuristic financial analyzer (source lines 533-829) -/

/-- Newline splitter behind `splitLines` (kernel-computable replacement for
core `String.split`). -/
def splitNl : List Char → List Char → List String
  | [], cur => [String.mk cur.reverse]
  | '\n' :: rest, cur => String.mk cur.reverse :: splitNl rest []
  | c :: rest, cur => splitNl rest (c :: cur)

/-- Embedding of `splitLines` (source lines 533-537). -/
def splitLines (input : String) : List String :=
  ((splitNl input.toList []).map jsTrim).filter (fun l => !(l == ""))

/-- Currency/separator characters stripped by `extractNumberFromLine`. -/
def sanitizeStrip (c : Char) : Bool :=
  c == '$' || c == '€' || c == '£' || c == ','

/-- Tail of the regex `-?\(?\d+(?:\.\d+)?\)?` after the optional opening
characters: mandatory digits, optional fraction, optional closing paren. -/
def numTail (l : List Char) : Option (List Char) :=
  match plainNumTail l with
  | none => none
  | some t =>
    match l.drop t.length with
    | ')' :: _ => some (t ++ [')'])
    | _ => some t

/-- Match of `-?\(?\d+(?:\.\d+)?\)?` anchored at the current position,
following the greedy preference for taking `-` and `(`. -/
def matchNumericAt (cs : List Char) : Option (List Char) :=
  match cs with
  | '-' :: '(' :: rest => (numTail rest).map (fun t => '-' :: '(' :: t)
  | '-' :: rest => (numTail rest).map (fun t => '-' :: t)
  | '(' :: rest => (numTail rest).map (fun t => '(' :: t)
  | _ => numTail cs

/-- Leftmost match of the numeric-token regex, with its start index. -/
def firstNumericMatch (idx : ℕ) (cs : List Char) : Option (ℕ × List Char) :=
  match matchNumericAt cs with
  | some t => some (idx, t)
  | none =>
    match cs with
    | [] => none
    | _ :: rest => firstNumericMatch (idx + 1) rest

/-- Scale factor inferred from the context around the numeric token
(source lines 553-559): billion before million before thousand, one only. -/
def scaleOf (context : String) : ℚ :=
  if hasWord context "billion" || hasWord context "bn" then 1000000000
  else if hasWord context "million" || hasWord context "mm" || hasWord context "mn" ||
      hasWord context "millions" then 1000000
  else if hasWord context "thousand" || hasWord context "k" || hasWord context "thousands" then
    1000
  else 1

/-- Embedding of `extractNumberFromLine` (source lines 539-562). -/
def extractNumberFromLine (line : String) : Option ℚ :=
  let sanitized := String.mk (line.toList.filter (fun c => !(sanitizeStrip c)))
  match firstNumericMatch 0 sanitized.toList with
  | none => none
  | some (idx, raw) =>
    match jsNumber (String.mk (raw.filter (fun c => !(c == '(' || c == ')')))) with
    | none => none
    | some v0 =>
      let value := if raw.contains '(' && raw.contains ')' then -v0 else v0
      let suffixContext := lowerStr (String.mk (sanitized.toList.drop (idx + raw.length)))
      let prefixContext := lowerStr (String.mk (sanitized.toList.take idx))
      let context := prefixContext ++ " " ++ suffixContext
      some
        (if hasWord context "billion" || hasWord context "bn" then value * 1000000000
         else if hasWord context "million" || hasWord context "mm" || hasWord context "mn" ||
             hasWord context "millions" then value * 1000000
         else if hasWord context "thousand" || hasWord context "k" ||
             hasWord context "thousands" then value * 1000
         else value)

/-- Keyword test of `findMetricValue`: some keyword occurs in the lowercased
line. -/
def keywordLineMatches (line : String) (keywords : List String) : Bool :=
  keywords.any (fun kw => strContains (lowerStr line) kw)

/-- Loop of `findMetricValue` over the split lines. -/
def findMetricLines (lines : List String) (keywords : List String) : Option ℚ :=
  match lines with
  | [] => none
  | line :: rest =>
    if keywordLineMatches line keywords then
      match extractNumberFromLine line with
      | some v => some v
      | none => findMetricLines rest keywords
    else findMetricLines rest keywords

/-- Embedding of `findMetricValue` (source lines 564-576). -/
def findMetricValue (text : String) (keywords : List String) : Option ℚ :=
  findMetricLines (splitLines text) keywords

/-- Embedding of `clampScore` (source line 578). -/
def clampScore (value : ℚ) : ℚ :=
  min 0.98 (max 0.05 value)

/-- Embedding of `formatCurrency` (source lines 580-602). -/
def formatCurrency (value : ℚ) : String :=
  let a := |value|
  let p : ℚ × String :=
    if a ≥ 1000000000 then (1000000000, "B")
    else if a ≥ 1000000 then (1000000, "M")
    else if a ≥ 1000 then (1000, "K")
    else (1, "")
  let scaled := a / p.1
  let precision : ℕ := if scaled ≥ 100 then 0 else if scaled ≥ 10 then 1 else 2
  let sign := if value < 0 then "-" else ""
  sign ++ "$" ++ toFixed precision scaled ++ p.2

/-- Embedding of `estimateRunwayMonths` (source lines 604-607): both inputs
must be truthy (present and non-zero) and the burn positive. -/
def estimateRunwayMonths (cash monthlyBurn : Option ℚ) : Option ℚ :=
  match cash, monthlyBurn with
  | some c, some b => if c ≠ 0 ∧ b ≠ 0 ∧ ¬(b ≤ 0) then some (c / b) else none
  | _, _ => none

/-- Metric scans of `buildMockFinancialReport` (source lines 616-644). -/
def mockRevenue (input : FinancialHealthInput) : Option ℚ :=
  findMetricValue input.incomeStatement ["total revenue", "revenue", "net sales"]

/-- Net-income scan (source line 617). -/
def mockNetIncome (input : FinancialHealthInput) : Option ℚ :=
  findMetricValue input.incomeStatement ["net income", "profit", "earnings"]

/-- Operating-expenses scan (source lines 618-622). -/
def mockOperatingExpenses (input : FinancialHealthInput) : Option ℚ :=
  findMetricValue input.incomeStatement
    ["operating expenses", "total operating expenses", "opex"]

/-- Cash scan (source lines 624-629). -/
def mockCash (input : FinancialHealthInput) : Option ℚ :=
  findMetricValue input.balanceSheet
    ["cash and cash equivalents", "cash & equivalents", "cash balance", "cash"]

/-- Current-assets scan (source lines 630-633). -/
def mockCurrentAssets (input : FinancialHealthInput) : Option ℚ :=
  findMetricValue input.balanceSheet ["current assets", "total current assets"]

/-- Current-liabilities scan (source lines 634-637). -/
def mockCurrentLiabilities (input : FinancialHealthInput) : Option ℚ :=
  findMetricValue input.balanceSheet ["current liabilities", "total current liabilities"]

/-- Total-debt scan (source line 638). -/
def mockTotalDebt (input : FinancialHealthInput) : Option ℚ :=
  findMetricValue input.balanceSheet ["total debt", "long-term debt", "debt"]

/-- Operating-cash-flow scan (source lines 640-643). -/
def mockOperatingCashFlow (input : FinancialHealthInput) : Option ℚ :=
  findMetricValue input.cashflowStatement ["operating cash flow", "cash from operations"]

/-- Free-cash-flow scan (source line 644). -/
def mockFreeCashFlow (input : FinancialHealthInput) : Option ℚ :=
  findMetricValue input.cashflowStatement ["free cash flow"]

/-- Liquidity ratio derivation (source lines 646-649): the truthiness tests
`currentAssets && currentLiabilities && currentLiabilities !== 0`. -/
def liquidityRatioOf (currentAssets currentLiabilities : Option ℚ) : Option ℚ :=
  match currentAssets, currentLiabilities with
  | some a, some l => if a ≠ 0 ∧ l ≠ 0 then some (a / l) else none
  | _, _ => none

/-- Net margin derivation (source lines 650-653):
`revenue && revenue !== 0 && typeof netIncome === 'number'`. -/
def netMarginOf (revenue netIncome : Option ℚ) : Option ℚ :=
  match revenue, netIncome with
  | some r, some n => if r ≠ 0 then some (n / r) else none
  | _, _ => none

/-- Free-cash-flow branch of the monthly-burn derivation (source lines
660-662). -/
def burnFromFcf (freeCashFlow : Option ℚ) : Option ℚ :=
  match freeCashFlow with
  | some f => if f ≠ 0 ∧ f < 0 then some (|f| / 3) else none
  | none => none

/-- Operating-expenses branch of the monthly-burn derivation (source lines
658-659): truthy expenses give `max(expenses / 12, 1)`. -/
def burnFromOpex (operatingExpenses freeCashFlow : Option ℚ) : Option ℚ :=
  match operatingExpenses with
  | some o => if o ≠ 0 then some (max (o / 12) 1) else burnFromFcf freeCashFlow
  | none => burnFromFcf freeCashFlow

/-- Monthly-burn derivation (source lines 655-662). -/
def monthlyBurnOf (operatingCashFlow operatingExpenses freeCashFlow : Option ℚ) : Option ℚ :=
  match operatingCashFlow with
  | some v => if v ≠ 0 ∧ v < 0 then some (|v| / 3) else burnFromOpex operatingExpenses freeCashFlow
  | none => burnFromOpex operatingExpenses freeCashFlow

/-- Liquidity ratio of the analyzed input. -/
def mockLiquidityRatio (input : FinancialHealthInput) : Option ℚ :=
  liquidityRatioOf (mockCurrentAssets input) (mockCurrentLiabilities input)

/-- Net margin of the analyzed input. -/
def mockNetMargin (input : FinancialHealthInput) : Option ℚ :=
  netMarginOf (mockRevenue input) (mockNetIncome input)

/-- Monthly burn of the analyzed input. -/
def mockMonthlyBurn (input : FinancialHealthInput) : Option ℚ :=
  monthlyBurnOf (mockOperatingCashFlow input) (mockOperatingExpenses input)
    (mockFreeCashFlow input)

/-- Runway months of the analyzed input (source line 664). -/
def mockRunwayMonths (input : FinancialHealthInput) : Option ℚ :=
  estimateRunwayMonths (mockCash input) (mockMonthlyBurn input)

/-- Score computation of `buildMockFinancialReport` (source lines 666-693). -/
def mockScore (netIncome operatingCashFlow liquidityRatio runwayMonths cash totalDebt :
    Option ℚ) : ℚ :=
  clampScore (0.5
    + (match netIncome with
       | some n => if n > 0 then 0.15 else -0.15
       | none => 0)
    + (match operatingCashFlow with
       | some c => if c > 0 then 0.15 else -0.15
       | none => 0)
    + (match liquidityRatio with
       | some r => if r ≥ 1.5 then 0.1 else if r < 1 then -0.1 else 0
       | none => 0)
    + (match runwayMonths with
       | some r => if r ≥ 12 then 0.1 else if r < 6 then -0.1 else 0
       | none => 0)
    + (match cash, totalDebt with
       | some c, some d => if c > d then 0.05 else -0.05
       | _, _ => 0))

/-- Strength entries pushed by the condition checklist (source lines
695-710), before the fallback. -/
def mockStrengthsRaw (netIncome netMargin liquidityRatio operatingCashFlow runwayMonths :
    Option ℚ) : List String :=
  (match netIncome with
   | some n =>
     if n > 0 then ["Net income of " ++ formatCurrency n ++ " indicates profitability."] else []
   | none => []) ++
  (match netMargin with
   | some m =>
     if m > 0.15 then ["Net margin of " ++ toFixed 1 (m * 100) ++ "% shows healthy leverage."]
     else []
   | none => []) ++
  (match liquidityRatio with
   | some r =>
     if r ≥ 1.5 then ["Current ratio at " ++ toFixed 1 r ++ "x reflects solid liquidity."]
     else []
   | none => []) ++
  (match operatingCashFlow with
   | some c =>
     if c > 0 then ["Operations generated " ++ formatCurrency c ++ " in cash."] else []
   | none => []) ++
  (match runwayMonths with
   | some r =>
     if r ≥ 12 then ["Cash runway extends roughly " ++ toFixed 0 r ++ " months."] else []
   | none => [])

/-- Risk entries pushed by the condition checklist (source lines 715-733),
before the fallback. -/
def mockRisksRaw (netIncome netMargin liquidityRatio operatingCashFlow runwayMonths
    totalDebt cash : Option ℚ) : List String :=
  (match netIncome with
   | some n =>
     if n < 0 then ["Net losses of " ++ formatCurrency n ++ " are pressuring profitability."]
     else []
   | none => []) ++
  (match netMargin with
   | some m =>
     if m < 0.05 then ["Net margin is thin, leaving little buffer for volatility."] else []
   | none => []) ++
  (match liquidityRatio with
   | some r =>
     if r < 1 then ["Current ratio of " ++ toFixed 2 r ++ "x signals working-capital stress."]
     else []
   | none => []) ++
  (match operatingCashFlow with
   | some c =>
     if c < 0 then ["Operating cash burn of " ++ formatCurrency c ++ " this period."] else []
   | none => []) ++
  (match runwayMonths with
   | some r =>
     if r < 6 then ["Cash runway is only " ++ toFixed 1 r ++ " months at current burn."]
     else []
   | none => []) ++
  (match totalDebt, cash with
   | some d, some c =>
     if d > c then ["Debt exceeds cash, creating refinancing exposure."] else []
   | _, _ => [])

/-- Recommendation entries pushed by the condition checklist (source lines
738-757), before the fallback. -/
def mockRecommendationsRaw (netIncome operatingCashFlow liquidityRatio runwayMonths
    totalDebt cash : Option ℚ) : List String :=
  (match netIncome with
   | some n =>
     if n < 0 then ["Tighten expense controls or improve pricing to return to profitability."]
     else []
   | none => []) ++
  (match operatingCashFlow with
   | some c =>
     if c < 0 then ["Stabilize working capital to reduce operating cash burn."] else []
   | none => []) ++
  (match liquidityRatio with
   | some r =>
     if r < 1.2 then ["Build short-term liquidity through credit facilities or slower spend."]
     else []
   | none => []) ++
  (match runwayMonths with
   | some r =>
     if r < 9 then ["Secure additional capital to extend runway beyond nine months."] else []
   | none => []) ++
  (match totalDebt, cash with
   | some d, some c =>
     if d > c * 1.2 then ["Evaluate refinancing or debt reduction options to lighten leverage."]
     else []
   | _, _ => [])

/-- Summary assembly (source lines 762-790). -/
def mockSummary (companyName : String) (netIncome revenue liquidityRatio operatingCashFlow
    runwayMonths : Option ℚ) : String :=
  let entity := if companyName = "" then "The company" else companyName
  let first :=
    match netIncome with
    | some n =>
      entity ++ " posted " ++ (if n ≥ 0 then "net income" else "a loss") ++ " of " ++
        formatCurrency n ++
        (match revenue with
         | some r => if r ≠ 0 then " on " ++ formatCurrency r ++ " of revenue" else ""
         | none => "") ++ "."
    | none => entity ++ " financials were analyzed with local heuristics."
  let parts :=
    [first] ++
    (match liquidityRatio with
     | some r => ["Current ratio sits near " ++ toFixed 1 r ++ "x."]
     | none => []) ++
    (match operatingCashFlow with
     | some c =>
       [if c ≥ 0 then "Operations generated positive cash."
        else "Operations consumed cash this period."]
     | none => []) ++
    (match runwayMonths with
     | some r => ["Estimated runway ~" ++ toFixed 0 r ++ " months."]
     | none => [])
  String.intercalate " " parts

/-- Liquidity signal of the heuristic path (source lines 792-799). -/
def mockLiquiditySignal (liquidityRatio cash : Option ℚ) : Option String :=
  match liquidityRatio with
  | some r =>
    some
      (if r ≥ 1 then "Current ratio ~" ++ toFixed 2 r ++ "x"
       else "Current ratio under 1.0 (" ++ toFixed 2 r ++ "x)")
  | none =>
    match cash with
    | some c => some ("Cash balance around " ++ formatCurrency c)
    | none => none

/-- Profitability signal of the heuristic path (source lines 801-806); the
`netMargin ?` test is truthiness, so a zero margin falls to the net line. -/
def mockProfitabilitySignal (netIncome netMargin : Option ℚ) : Option String :=
  match netIncome with
  | some n =>
    some
      (match netMargin with
       | some m =>
         if m ≠ 0 then "Net margin " ++ toFixed 1 (m * 100) ++ "%"
         else "Net " ++ (if n ≥ 0 then "income" else "loss") ++ " " ++ formatCurrency n
       | none => "Net " ++ (if n ≥ 0 then "income" else "loss") ++ " " ++ formatCurrency n)
  | none => none

/-- Runway signal of the heuristic path (source lines 808-813). -/
def mockRunwaySignal (runwayMonths : Option ℚ) : Option String :=
  match runwayMonths with
  | some r =>
    some
      (if r ≥ 12 then "~" ++ toFixed 0 r ++ " months runway"
       else "Runway near " ++ toFixed 0 r ++ " months")
  | none => none

/-- Embedding of `buildMockFinancialReport` (source lines 609-829). -/
def buildMockFinancialReport (input : FinancialHealthInput) : FinancialHealthReport :=
  let revenue := mockRevenue input
  let netIncome := mockNetIncome input
  let cash := mockCash input
  let totalDebt := mockTotalDebt input
  let operatingCashFlow := mockOperatingCashFlow input
  let liquidityRatio := mockLiquidityRatio input
  let netMargin := mockNetMargin input
  let runwayMonths := mockRunwayMonths input
  let score := mockScore netIncome operatingCashFlow liquidityRatio runwayMonths cash totalDebt
  let strengths0 := mockStrengthsRaw netIncome netMargin liquidityRatio operatingCashFlow
    runwayMonths
  let risks0 := mockRisksRaw netIncome netMargin liquidityRatio operatingCashFlow runwayMonths
    totalDebt cash
  let recommendations0 := mockRecommendationsRaw netIncome operatingCashFlow liquidityRatio
    runwayMonths totalDebt cash
  { companyName := input.companyName
    reportingPeriod := input.reportingPeriod
    summary := mockSummary input.companyName netIncome revenue liquidityRatio operatingCashFlow
      runwayMonths
    status := deriveHealthStatus (some score) none
    score := score
    strengths :=
      if strengths0 = [] then
        ["Statements look complete, enabling quick diagnostics even without AI output."]
      else strengths0
    risks := if risks0 = [] then ["No acute risks detected from the text provided."] else risks0
    recommendations :=
      if recommendations0 = [] then
        ["Maintain current plan; monitor cash trends monthly to stay ahead of shifts."]
      else recommendations0
    liquiditySignal := mockLiquiditySignal liquidityRatio cash
    profitabilitySignal := mockProfitabilitySignal netIncome netMargin
    runwaySignal := mockRunwaySignal runwayMonths
    rawAnswer := some "Generated locally from pasted statements." }

/- ### Spec-reading definitions and concrete inputs used by the claims -/

/-- Reading of claim C4 as stated: return whatever number extraction yields
on the first keyword-matching line, without scanning further lines. -/
def findMetricValueFirstLine (text : String) (keywords : List String) : Option ℚ :=
  match (splitLines text).find? (fun line => keywordLineMatches line keywords) with
  | some line => extractNumberFromLine line
  | none => none

/-- Reading of claim C5 as stated: percent flag from a trailing `%` only, and
a strip set of commas, dollar signs, percent signs and parentheses (spaces
not included). -/
def parseNumberValueClaim (s : String) : Option ℚ :=
  let percentFlag : Bool :=
    match (jsTrim s).toList.reverse with
    | c :: _ => c == '%'
    | [] => false
  let wrappedNegative := startsWithParen s && endsWithParen s
  let cleaned := jsTrim (String.mk (s.toList.filter
    (fun c => !(c == ',' || c == '$' || c == '%' || c == '(' || c == ')'))))
  if cleaned = "" then none
  else
    match jsNumber cleaned with
    | none => none
    | some parsed =>
      let signedValue := if wrappedNegative then -parsed else parsed
      some (if percentFlag then signedValue / 100 else signedValue)

/-- Claim C5 as amended: a `%` anywhere in the string sets the percent flag,
spaces are stripped along with commas, dollar signs, percent signs and
parentheses, and the parsed value is multiplied by the negation factor and
then the percent factor. -/
def parseNumberValueAmended (s : String) : Option ℚ :=
  let cleaned := jsTrim (stripChars s)
  if cleaned = "" then none
  else
    (jsNumber cleaned).map (fun parsed =>
      parsed * (if startsWithParen s && endsWithParen s then -1 else 1) *
        (if strContains s "%" then 1 / 100 else 1))

/-- Reading of claim C6: first numeric token of the stripped line, negated if
parenthesized, times a single scale factor chosen in priority order. -/
def extractNumberSpec (line : String) : Option ℚ :=
  let sanitized := String.mk (line.toList.filter (fun c => !(sanitizeStrip c)))
  match firstNumericMatch 0 sanitized.toList with
  | none => none
  | some (idx, raw) =>
    match jsNumber (String.mk (raw.filter (fun c => !(c == '(' || c == ')')))) with
    | none => none
    | some v0 =>
      some
        ((if raw.contains '(' && raw.contains ')' then -v0 else v0) *
          scaleOf (lowerStr (String.mk (sanitized.toList.take idx)) ++ " " ++
            lowerStr (String.mk (sanitized.toList.drop (idx + raw.length)))))

/-- Explicit score channel of `parseSentimentValue`: the parsed `score` field
in the object branch, the first numeric substring in the string branch. -/
def explicitSentimentScore (value : JsValue) : Option ℚ :=
  match value with
  | JsValue.obj o =>
    match getVar o "label" with
    | JsValue.str _ => parseNumberValue (getVar o "score")
    | _ => none
  | JsValue.str s => firstNumberMatch s
  | _ => none

/-- An input whose three statement texts are empty. -/
def emptyFinInput : FinancialHealthInput :=
  { companyName := "Acme", reportingPeriod := none, balanceSheet := "",
    incomeStatement := "", cashflowStatement := "" }

/-- An agent response carrying no answer and no variables. -/
def emptyRawResponse : NeuralSeekRawResponse :=
  { answer := none, vars := none, variablesExpanded := none }

/-- An agent response whose explicit variables and answer-embedded JSON
object collide on the key `score`. -/
def mergeRawExample : NeuralSeekRawResponse :=
  { answer := some "\x7b\"score\": 2\x7d"
    vars := some [("score", JsValue.num 1)]
    variablesExpanded := none }

/-- An agent response with overlapping and disjoint keys between the
explicit variables and the answer-embedded JSON object. -/
def mergeWitnessRaw : NeuralSeekRawResponse :=
  { answer := some "\x7b\"a\": 2, \"b\": 3\x7d"
    vars := some [("a", JsValue.num 1), ("c", JsValue.num 4)]
    variablesExpanded := none }

/- ### Object-lookup lemmas -/

theorem orOpt_none_right {α : Type} (a : Option α) : orOpt a none = a := by
  cases a <;> rfl

theorem orOpt_assoc {α : Type} (a b c : Option α) :
    orOpt (orOpt a b) c = orOpt a (orOpt b c) := by
  cases a <;> rfl

theorem objLookup_append (a b : JsObj) (k : String) :
    objLookup (a ++ b) k = orOpt (objLookup a k) (objLookup b k) := by
  induction a with
  | nil => rfl
  | cons p rest ih =>
    by_cases h : p.1 = k
    · simp [objLookup, h, orOpt]
    · simp [objLookup, h, ih]

theorem hasKey_append (a b : JsObj) (k : String) :
    hasKey (a ++ b) k = (hasKey a k || hasKey b k) := by
  induction a with
  | nil => rfl
  | cons p rest ih => simp [hasKey, ih, Bool.or_assoc]

theorem objLookup_eq_none_of_hasKey_false (o : JsObj) (k : String)
    (h : hasKey o k = false) : objLookup o k = none := by
  induction o with
  | nil => rfl
  | cons p rest ih =>
    simp only [hasKey, Bool.or_eq_false_iff] at h
    have h1 : p.1 ≠ k := by
      intro he
      simp [he] at h
    simp [objLookup, h1, ih h.2]

theorem objLookup_eq_none_of_not_mem (o : JsObj) (k : String)
    (h : k ∉ o.map Prod.fst) : objLookup o k = none := by
  induction o with
  | nil => rfl
  | cons p rest ih =>
    simp only [List.map_cons, List.mem_cons, not_or] at h
    have h1 : ¬ p.1 = k := Ne.symm h.1
    simp [objLookup, h1, ih h.2]

theorem objLookup_map_replace (o : JsObj) (k : String) (v : JsValue)
    (h : hasKey o k = true) :
    objLookup (o.map (fun p => if p.1 = k then (k, v) else p)) k = some v := by
  induction o with
  | nil => simp [hasKey] at h
  | cons p rest ih =>
    obtain ⟨k1, w⟩ := p
    by_cases h1 : k1 = k
    · simp only [List.map_cons, if_pos (show (k1, w).1 = k from h1)]
      simp [objLookup]
    · simp only [List.map_cons, if_neg (show ¬ (k1, w).1 = k from h1)]
      simp only [objLookup]
      rw [if_neg h1]
      apply ih
      simp only [hasKey, Bool.or_eq_true] at h
      rcases h with h | h
      · exact absurd (by simpa using h) h1
      · exact h

theorem objLookup_map_replace_ne (o : JsObj) (k k2 : String) (v : JsValue) (h : k2 ≠ k) :
    objLookup (o.map (fun p => if p.1 = k then (k, v) else p)) k2 = objLookup o k2 := by
  induction o with
  | nil => rfl
  | cons p rest ih =>
    obtain ⟨k1, w⟩ := p
    by_cases h1 : k1 = k
    · simp only [List.map_cons, if_pos (show (k1, w).1 = k from h1)]
      simp only [objLookup]
      have hk12 : ¬ k1 = k2 := by
        rw [h1]
        exact Ne.symm h
      rw [if_neg (Ne.symm h), if_neg hk12]
      exact ih
    · simp only [List.map_cons, if_neg (show ¬ (k1, w).1 = k from h1)]
      simp only [objLookup]
      by_cases h2 : k1 = k2
      · rw [if_pos h2, if_pos h2]
      · rw [if_neg h2, if_neg h2]
        exact ih

theorem objLookup_objSet_self (o : JsObj) (k : String) (v : JsValue) :
    objLookup (objSet o k v) k = some v := by
  unfold objSet
  by_cases h : hasKey o k
  · rw [if_pos h]
    exact objLookup_map_replace o k v h
  · rw [if_neg h, objLookup_append, objLookup_eq_none_of_hasKey_false o k (by simpa using h)]
    simp [objLookup, orOpt]

theorem objLookup_objSet_ne (o : JsObj) (k k2 : String) (v : JsValue) (h : k2 ≠ k) :
    objLookup (objSet o k v) k2 = objLookup o k2 := by
  unfold objSet
  by_cases hk : hasKey o k
  · rw [if_pos hk]
    exact objLookup_map_replace_ne o k k2 v h
  · rw [if_neg hk, objLookup_append]
    have hnone : objLookup [(k, v)] k2 = none := by
      have hne : ¬ k = k2 := Ne.symm h
      simp [objLookup, hne]
    rw [hnone, orOpt_none_right]

theorem spreadInto_lookup (b : List (String × JsValue)) (a : JsObj) (k : String) :
    objLookup (spreadInto a b) k = orOpt (objLookup b.reverse k) (objLookup a k) := by
  induction b generalizing a with
  | nil => rfl
  | cons p rest ih =>
    show objLookup (spreadInto (objSet a p.1 p.2) rest) k = _
    rw [ih, List.reverse_cons, objLookup_append, orOpt_assoc]
    congr 1
    by_cases h : k = p.1
    · subst h
      rw [objLookup_objSet_self]
      simp [objLookup, orOpt]
    · rw [objLookup_objSet_ne _ _ _ _ h]
      have hnone : objLookup [(p.1, p.2)] k = none := by
        have hne : ¬ p.1 = k := Ne.symm h
        simp [objLookup, hne]
      rw [hnone]
      rfl

theorem objLookup_reverse_of_nodup (o : JsObj) (h : keysNodup o) (k : String) :
    objLookup o.reverse k = objLookup o k := by
  induction o with
  | nil => rfl
  | cons p rest ih =>
    obtain ⟨k1, w⟩ := p
    unfold keysNodup at h
    simp only [List.map_cons, List.nodup_cons] at h
    rw [List.reverse_cons, objLookup_append, ih h.2]
    by_cases hk : k1 = k
    · subst hk
      rw [objLookup_eq_none_of_not_mem rest k1 h.1]
      simp [objLookup, orOpt]
    · have hsing : objLookup [(k1, w)] k = none := by
        simp [objLookup, hk]
      rw [hsing, orOpt_none_right]
      simp [objLookup, hk]

/- ### Lemmas about the normalization fold -/

/-- One step of the `normalizeVariableKeys` loop. -/
def normStep (acc : JsObj) (p : String × JsValue) : JsObj :=
  if hasKey acc (lowerStr p.1) then acc else acc ++ [(lowerStr p.1, p.2)]

theorem normalizeVariableKeys_eq_foldl (input : JsObj) :
    normalizeVariableKeys input = input.foldl normStep input := rfl

theorem normStep_lookup_mono (acc : JsObj) (p : String × JsValue) (k : String) (v : JsValue)
    (h : objLookup acc k = some v) : objLookup (normStep acc p) k = some v := by
  unfold normStep
  by_cases hk : hasKey acc (lowerStr p.1)
  · rw [if_pos hk]
    exact h
  · rw [if_neg hk, objLookup_append, h]
    rfl

theorem foldl_normStep_lookup_mono (l : List (String × JsValue)) (acc : JsObj) (k : String)
    (v : JsValue) (h : objLookup acc k = some v) :
    objLookup (l.foldl normStep acc) k = some v := by
  induction l generalizing acc with
  | nil => exact h
  | cons p rest ih => exact ih _ (normStep_lookup_mono acc p k v h)

theorem normStep_hasKey_mono (acc : JsObj) (p : String × JsValue) (k : String)
    (h : hasKey acc k = true) : hasKey (normStep acc p) k = true := by
  unfold normStep
  by_cases hk : hasKey acc (lowerStr p.1)
  · rw [if_pos hk]
    exact h
  · rw [if_neg hk, hasKey_append, h]
    rfl

theorem normStep_self_hasKey (acc : JsObj) (p : String × JsValue) :
    hasKey (normStep acc p) (lowerStr p.1) = true := by
  unfold normStep
  by_cases hk : hasKey acc (lowerStr p.1)
  · rw [if_pos hk]
    exact hk
  · rw [if_neg hk, hasKey_append]
    have hsing : hasKey [(lowerStr p.1, p.2)] (lowerStr p.1) = true := by
      simp [hasKey]
    rw [hsing, Bool.or_true]

theorem foldl_normStep_hasKey_mono (l : List (String × JsValue)) (acc : JsObj) (k : String)
    (h : hasKey acc k = true) : hasKey (l.foldl normStep acc) k = true := by
  induction l generalizing acc with
  | nil => exact h
  | cons p rest ih => exact ih _ (normStep_hasKey_mono acc p k h)

theorem foldl_normStep_lower_present (l : List (String × JsValue)) (acc : JsObj)
    (k : String) (v : JsValue) (h : (k, v) ∈ l) :
    hasKey (l.foldl normStep acc) (lowerStr k) = true := by
  induction l generalizing acc with
  | nil => cases h
  | cons p rest ih =>
    rcases List.mem_cons.mp h with h1 | h1
    · have hlow : lowerStr k = lowerStr p.1 := by rw [← h1]
      rw [List.foldl_cons, hlow]
      exact foldl_normStep_hasKey_mono rest _ _ (normStep_self_hasKey acc p)
    · exact ih _ h1

theorem foldl_normStep_first_value (l : List (String × JsValue)) (acc : JsObj)
    (L : String) (k : String) (v : JsValue) (hacc : hasKey acc L = false)
    (hfind : List.find? (fun p => lowerStr p.1 == L) l = some (k, v)) :
    objLookup (l.foldl normStep acc) L = some v := by
  induction l generalizing acc with
  | nil => cases hfind
  | cons p rest ih =>
    by_cases hp : lowerStr p.1 = L
    · rw [List.find?_cons_of_pos _ (by simp [hp])] at hfind
      have hpv : p = (k, v) := by
        injection hfind
      subst hpv
      have hl : lowerStr k = L := hp
      have hstep : normStep acc (k, v) = acc ++ [(L, v)] := by
        unfold normStep
        dsimp only
        rw [hl, if_neg (by simp [hacc])]
      rw [List.foldl_cons, hstep]
      have hlook : objLookup (acc ++ [(L, v)]) L = some v := by
        rw [objLookup_append, objLookup_eq_none_of_hasKey_false _ _ hacc]
        simp [objLookup, orOpt]
      exact foldl_normStep_lookup_mono rest _ _ _ hlook
    · rw [List.find?_cons_of_neg _ (by simp [hp])] at hfind
      have hacc2 : hasKey (normStep acc p) L = false := by
        unfold normStep
        by_cases hk : hasKey acc (lowerStr p.1)
        · rw [if_pos hk]
          exact hacc
        · rw [if_neg hk, hasKey_append, hacc]
          have hsing : hasKey [(lowerStr p.1, p.2)] L = false := by
            simp [hasKey, hp]
          rw [hsing]
          rfl
      exact ih _ hacc2 hfind

/- ### Claim theorems -/

/-- Claim C3: for every input, the heuristic score of
`buildMockFinancialReport` is 0.5 plus the five documented contributions
(net income sign ±0.15, operating-cash-flow sign ±0.15, liquidity-ratio
thresholds ±0.10, runway thresholds ±0.10, cash-versus-debt ±0.05, each
contributing 0 when the metric is absent), clamped by `clampScore`; and
`clampScore` clamps into the interval [0.05, 0.98]. -/
theorem C3_heuristic_score (input : FinancialHealthInput) :
    ((buildMockFinancialReport input).score =
      clampScore (0.5
        + (match mockNetIncome input with
           | some n => if n > 0 then 0.15 else -0.15
           | none => 0)
        + (match mockOperatingCashFlow input with
           | some c => if c > 0 then 0.15 else -0.15
           | none => 0)
        + (match mockLiquidityRatio input with
           | some r => if r ≥ 1.5 then 0.1 else if r < 1 then -0.1 else 0
           | none => 0)
        + (match mockRunwayMonths input with
           | some r => if r ≥ 12 then 0.1 else if r < 6 then -0.1 else 0
           | none => 0)
        + (match mockCash input, mockTotalDebt input with
           | some c, some d => if c > d then 0.05 else -0.05
           | _, _ => 0))) ∧
    (∀ v : ℚ, 0.05 ≤ clampScore v ∧ clampScore v ≤ 0.98) := by
  constructor
  · rfl
  · intro v
    constructor
    · exact le_min (by norm_num) (le_max_left _ _)
    · exact min_le_left _ _

/-- Claim C10: inside the heuristic analyzer a metric extracted as exactly 0
is treated as absent by the derivations, because they test truthiness: the
liquidity ratio is absent when current assets are 0 for every value of the
liabilities, the net margin is absent when revenue is 0, the monthly burn
skips the operating-expenses branch when the expenses are 0 (behaving as if
they were absent), and the runway is absent when cash is 0. -/
theorem C10_zero_truthiness :
    (∀ cl : Option ℚ, liquidityRatioOf (some 0) cl = none) ∧
    (∀ ni : Option ℚ, netMarginOf (some 0) ni = none) ∧
    (∀ ocf fcf : Option ℚ, monthlyBurnOf ocf (some 0) fcf = monthlyBurnOf ocf none fcf) ∧
    (∀ mb : Option ℚ, estimateRunwayMonths (some 0) mb = none) := by
  refine ⟨fun cl => ?_, fun ni => ?_, fun ocf fcf => ?_, fun mb => ?_⟩
  · cases cl <;> simp [liquidityRatioOf]
  · cases ni <;> simp [netMarginOf]
  · cases ocf with
    | none => simp [monthlyBurnOf, burnFromOpex]
    | some v => simp [monthlyBurnOf, burnFromOpex]
  · cases mb <;> simp [estimateRunwayMonths]

/-- Claim C9: the parsing and normalization layer is total over arbitrary
untyped input.  In this embedding every extractor is a total function by
construction; this theorem records the documented absent/default results on
every wrongly-shaped input, so no shape can make the layer fail. -/
theorem C9_total_extractors :
    (∀ q : ℚ, parseArrayValue (JsValue.num q) = []) ∧
    (∀ b : Bool, parseArrayValue (JsValue.bool b) = []) ∧
    parseArrayValue JsValue.null = [] ∧
    parseArrayValue JsValue.undef = [] ∧
    (∀ o : JsObj, parseArrayValue (JsValue.obj o) = []) ∧
    (∀ b : Bool, parseNumberValue (JsValue.bool b) = none) ∧
    parseNumberValue JsValue.null = none ∧
    parseNumberValue JsValue.undef = none ∧
    (∀ xs : List JsValue, parseNumberValue (JsValue.arr xs) = none) ∧
    (∀ o : JsObj, parseNumberValue (JsValue.obj o) = none) ∧
    (∀ q : ℚ, getStringValue (JsValue.num q) = none) ∧
    (∀ xs : List JsValue, getStringValue (JsValue.arr xs) = none) ∧
    (∀ o : JsObj, getStringValue (JsValue.obj o) = none) ∧
    (∀ b : Bool, toDisplayString (JsValue.bool b) = none) ∧
    toDisplayString JsValue.null = none ∧
    toDisplayString JsValue.undef = none ∧
    (∀ q : ℚ, parseSentimentValue (JsValue.num q) = ⟨Sentiment.Neutral, 0⟩) ∧
    (∀ xs : List JsValue, parseSentimentValue (JsValue.arr xs) = ⟨Sentiment.Neutral, 0⟩) ∧
    parseSentimentValue JsValue.null = ⟨Sentiment.Neutral, 0⟩ ∧
    parseSentimentValue JsValue.undef = ⟨Sentiment.Neutral, 0⟩ ∧
    parseSentimentValue (JsValue.obj []) = ⟨Sentiment.Neutral, 0⟩ ∧
    (∀ q : ℚ, normalizeRecord (JsValue.num q) = none) ∧
    (∀ s : String, normalizeRecord (JsValue.str s) = none) ∧
    (∀ xs : List JsValue, normalizeRecord (JsValue.arr xs) = none) ∧
    extractJsonObjectFromAnswer none = none ∧
    extractJsonObjectFromAnswer (some "") = none ∧
    extractJsonObjectFromAnswer (some "no json here") = none ∧
    collectUniqueList [JsValue.null, JsValue.undef, JsValue.obj [], JsValue.num 3,
      JsValue.bool true] = [] ∧
    pickFirstNumber [JsValue.null, JsValue.undef, JsValue.bool true, JsValue.arr [],
      JsValue.obj []] = none ∧
    pickFirstString [JsValue.null, JsValue.undef, JsValue.bool true, JsValue.num 3,
      JsValue.arr [], JsValue.obj []] = none := by
  exact ⟨fun _ => rfl, fun _ => rfl, rfl, rfl, fun _ => rfl, fun _ => rfl, rfl, rfl,
    fun _ => rfl, fun _ => rfl, fun _ => rfl, fun _ => rfl, fun _ => rfl, fun _ => rfl,
    rfl, rfl, fun _ => rfl, fun _ => rfl, rfl, rfl, rfl, fun _ => rfl, fun _ => rfl,
    fun _ => rfl, rfl, rfl, rfl, rfl, rfl, rfl⟩

/-- Claim C7: `normalizeVariableKeys` leaves every original entry unchanged
(hence it never overwrites a pre-existing lowercase key), makes
`lowerStr K` present for every original key `K`, and when `lowerStr K` was
not already a key of the map the added lowercase entry carries the value of
the first original key with that lowercase form — in particular, for a key
whose lowercase form is unique, its own value. -/
theorem C7_normalize_keys (input : JsObj) :
    (∀ k v, objLookup input k = some v → objLookup (normalizeVariableKeys input) k = some v) ∧
    (∀ k v, (k, v) ∈ input → hasKey (normalizeVariableKeys input) (lowerStr k) = true) ∧
    (∀ L k v, hasKey input L = false →
      List.find? (fun p => lowerStr p.1 == L) input = some (k, v) →
      objLookup (normalizeVariableKeys input) L = some v) := by
  refine ⟨fun k v h => ?_, fun k v h => ?_, fun L k v h1 h2 => ?_⟩
  · rw [normalizeVariableKeys_eq_foldl]
    exact foldl_normStep_lookup_mono input input k v h
  · rw [normalizeVariableKeys_eq_foldl]
    exact foldl_normStep_lower_present input input k v h
  · rw [normalizeVariableKeys_eq_foldl]
    exact foldl_normStep_first_value input input L k v h1 h2

/-- Witness for C7 at the concrete map of the spec example:
`normalizeVariableKeys` on Foo=1, foo=2 leaves foo mapped to 2 and Foo
mapped to 1. -/
theorem C7_normalize_keys_witness :
    objLookup (normalizeVariableKeys [("Foo", JsValue.num 1), ("foo", JsValue.num 2)]) "foo"
      = some (JsValue.num 2) ∧
    objLookup (normalizeVariableKeys [("Foo", JsValue.num 1), ("foo", JsValue.num 2)]) "Foo"
      = some (JsValue.num 1) :=
  ⟨(C7_normalize_keys [("Foo", JsValue.num 1), ("foo", JsValue.num 2)]).1 "foo"
      (JsValue.num 2) rfl,
    (C7_normalize_keys [("Foo", JsValue.num 1), ("foo", JsValue.num 2)]).1 "Foo"
      (JsValue.num 1) rfl⟩

/-- Counterexample to claim C4 as stated: on the text whose first
keyword-matching line carries no number, `findMetricValue` keeps scanning and
returns the number of a later matching line, while the claimed
first-qualifying-line-wins reading returns nothing. -/
theorem C4_counterexample :
    findMetricValue "revenue n/a\nrevenue: 5" ["revenue"] = some 5 ∧
    findMetricValueFirstLine "revenue n/a\nrevenue: 5" ["revenue"] = none := by
  exact ⟨by decide, by decide⟩

/-- Claim C4 (amended): `findMetricValue` scans the non-empty trimmed lines
in order, case-insensitively, and returns the extracted number of the first
keyword-matching line from which a number can be extracted; keyword-matching
lines without an extractable number are skipped and the scan continues. -/
theorem C4_amended (text : String) (keywords : List String) :
    findMetricValue text keywords =
      (splitLines text).findSome?
        (fun line =>
          if keywordLineMatches line keywords then extractNumberFromLine line else none) := by
  unfold findMetricValue
  induction splitLines text with
  | nil => rfl
  | cons line rest ih =>
    by_cases h : keywordLineMatches line keywords
    · cases hv : extractNumberFromLine line with
      | none => simp [findMetricLines, List.findSome?_cons, h, hv, ih]
      | some v => simp [findMetricLines, List.findSome?_cons, h, hv]
    · simp [findMetricLines, List.findSome?_cons, h, ih]

/-- Counterexample to claim C5 as stated: the code sets the percent flag for
a `%` anywhere (not only trailing), and it also strips spaces, so `"%12"`
parses to 0.12 (claimed reading: 12) and `"1 2"` parses to 12 (claimed
reading: absent). -/
theorem C5_counterexample :
    parseNumberValue (JsValue.str "%12") = some (3 / 25 : ℚ) ∧
    parseNumberValueClaim "%12" = some 12 ∧
    parseNumberValue (JsValue.str "1 2") = some 12 ∧
    parseNumberValueClaim "1 2" = none := by
  exact ⟨by decide, by decide, by decide, by decide⟩

/-- Claim C5 (amended): `parseNumberValue` on a string detects a `%` anywhere
(percent flag) and an enclosing parenthesis pair (negative flag), strips
commas, spaces, dollar signs, percent signs and parentheses, returns absent
on empty-after-strip or non-numeric remainder, negates if the negative flag
was set and divides by 100 afterwards if the percent flag was set, so that
"(12%)" yields -0.12, "$1,234.50" yields 1234.5 and "" yields absent; a
finite numeric input is returned as-is. -/
theorem C5_amended :
    (∀ s : String, parseNumberValue (JsValue.str s) = parseNumberValueAmended s) ∧
    parseNumberValue (JsValue.str "(12%)") = some (-(3 / 25) : ℚ) ∧
    parseNumberValue (JsValue.str "$1,234.50") = some (2469 / 2 : ℚ) ∧
    parseNumberValue (JsValue.str "") = none ∧
    (∀ q : ℚ, parseNumberValue (JsValue.num q) = some q) := by
  refine ⟨fun s => ?_, by decide, by decide, rfl, fun q => rfl⟩
  show (let containsPercent := strContains s "%"
        let wrappedNegative := startsWithParen s && endsWithParen s
        let cleaned := jsTrim (stripChars s)
        if cleaned = "" then none
        else
          match jsNumber cleaned with
          | none => none
          | some parsed =>
            let signedValue := if wrappedNegative then -parsed else parsed
            some (if containsPercent then signedValue / 100 else signedValue)) =
      parseNumberValueAmended s
  unfold parseNumberValueAmended
  by_cases hc : jsTrim (stripChars s) = ""
  · simp [hc]
  · simp only [hc, if_false]
    cases hn : jsNumber (jsTrim (stripChars s)) with
    | none => simp
    | some parsed =>
      simp only [Option.map_some']
      split_ifs <;> (congr 1; ring)

/-- Claim C6: `extractNumberFromLine` strips currency symbols and thousands
separators, takes the first numeric token (negating a fully parenthesized
one), and multiplies by at most one scale factor chosen from the surrounding
context in the priority order billion/bn, then million/mm/mn/millions, then
thousand/k/thousands; in particular "Net Income: $2.5 million" yields
2500000. -/
theorem scale_mul (value : ℚ) (context : String) :
    (if hasWord context "billion" || hasWord context "bn" then value * 1000000000
     else if hasWord context "million" || hasWord context "mm" || hasWord context "mn" ||
         hasWord context "millions" then value * 1000000
     else if hasWord context "thousand" || hasWord context "k" ||
         hasWord context "thousands" then value * 1000
     else value) = value * scaleOf context := by
  unfold scaleOf
  split_ifs <;> ring

theorem C6_extract_number :
    (∀ line : String, extractNumberFromLine line = extractNumberSpec line) ∧
    extractNumberFromLine "Net Income: $2.5 million" = some 2500000 := by
  constructor
  · intro line
    unfold extractNumberFromLine extractNumberSpec
    dsimp only
    simp only [scale_mul]
  · decide

/-- Counterexample to claim C1 as stated: with explicit variable score=1 and
answer JSON score=2, the object spread puts the JSON from the answer last,
so it wins the collision: the merged table and therefore the report carry 2,
not the explicit variable value 1. -/
theorem C1_counterexample :
    (financialReportFromResponse emptyFinInput mergeRawExample).score = 2 ∧
    (financialReportFromResponse emptyFinInput mergeRawExample).score ≠ 1 ∧
    objLookup (preNormalizedVariables mergeRawExample) "score" = some (JsValue.num 2) := by
  exact ⟨by decide, by decide, rfl⟩

/-- Claim C1 (amended): the lookup table of `runFinancialHealthAgent` merges
the agent variables with any JSON object recovered from the free-text
answer, with the JSON-from-answer spread last so that it takes precedence on
key collision, while keys absent from the JSON-in-answer are still populated
from the explicit variables. -/
theorem C1_amended (raw : NeuralSeekRawResponse) (k : String)
    (h : keysNodup (answerObject raw)) :
    objLookup (preNormalizedVariables raw) k =
      orOpt (objLookup (answerObject raw) k) (objLookup (extractVariables raw) k) := by
  unfold preNormalizedVariables
  rw [spreadInto_lookup, objLookup_reverse_of_nodup _ h]

/-- Witness for C1 (amended) at a concrete response with a key collision and
keys on both sides. -/
theorem C1_amended_witness :
    objLookup (preNormalizedVariables mergeWitnessRaw) "a" =
      orOpt (objLookup (answerObject mergeWitnessRaw) "a")
        (objLookup (extractVariables mergeWitnessRaw) "a") ∧
    objLookup (preNormalizedVariables mergeWitnessRaw) "c" =
      orOpt (objLookup (answerObject mergeWitnessRaw) "c")
        (objLookup (extractVariables mergeWitnessRaw) "c") := by
  have hnodup : keysNodup (answerObject mergeWitnessRaw) := by decide
  exact ⟨C1_amended mergeWitnessRaw "a" hnodup, C1_amended mergeWitnessRaw "c" hnodup⟩

/-- Strength list of the heuristic report, as built. -/
theorem buildMock_strengths_eq (input : FinancialHealthInput) :
    (buildMockFinancialReport input).strengths =
      (if mockStrengthsRaw (mockNetIncome input) (mockNetMargin input)
          (mockLiquidityRatio input) (mockOperatingCashFlow input) (mockRunwayMonths input)
          = [] then
        ["Statements look complete, enabling quick diagnostics even without AI output."]
      else
        mockStrengthsRaw (mockNetIncome input) (mockNetMargin input)
          (mockLiquidityRatio input) (mockOperatingCashFlow input) (mockRunwayMonths input)) :=
  rfl

/-- Risk list of the heuristic report, as built. -/
theorem buildMock_risks_eq (input : FinancialHealthInput) :
    (buildMockFinancialReport input).risks =
      (if mockRisksRaw (mockNetIncome input) (mockNetMargin input) (mockLiquidityRatio input)
          (mockOperatingCashFlow input) (mockRunwayMonths input) (mockTotalDebt input)
          (mockCash input) = [] then
        ["No acute risks detected from the text provided."]
      else
        mockRisksRaw (mockNetIncome input) (mockNetMargin input) (mockLiquidityRatio input)
          (mockOperatingCashFlow input) (mockRunwayMonths input) (mockTotalDebt input)
          (mockCash input)) :=
  rfl

/-- Recommendation list of the heuristic report, as built. -/
theorem buildMock_recommendations_eq (input : FinancialHealthInput) :
    (buildMockFinancialReport input).recommendations =
      (if mockRecommendationsRaw (mockNetIncome input) (mockOperatingCashFlow input)
          (mockLiquidityRatio input) (mockRunwayMonths input) (mockTotalDebt input)
          (mockCash input) = [] then
        ["Maintain current plan; monitor cash trends monthly to stay ahead of shifts."]
      else
        mockRecommendationsRaw (mockNetIncome input) (mockOperatingCashFlow input)
          (mockLiquidityRatio input) (mockRunwayMonths input) (mockTotalDebt input)
          (mockCash input)) :=
  rfl

/-- Counterexample to claim C2 as stated: the agent path has no fallback
sentences, so a response with no usable sources yields a report whose three
lists are all empty. -/
theorem C2_counterexample :
    (financialReportFromResponse emptyFinInput emptyRawResponse).strengths = [] ∧
    (financialReportFromResponse emptyFinInput emptyRawResponse).risks = [] ∧
    (financialReportFromResponse emptyFinInput emptyRawResponse).recommendations = [] := by
  exact ⟨rfl, rfl, rfl⟩

/-- Claim C2 (amended): every report of the heuristic path
`buildMockFinancialReport` has non-empty strengths, risks and
recommendations, and whenever no condition yields an entry for one of these
lists that list is exactly the single literal fallback sentence; the agent
path `runFinancialHealthAgent` gives no such guarantee (its lists may be
empty). -/
theorem C2_amended (input : FinancialHealthInput) :
    ((buildMockFinancialReport input).strengths ≠ [] ∧
      (buildMockFinancialReport input).risks ≠ [] ∧
      (buildMockFinancialReport input).recommendations ≠ []) ∧
    (mockStrengthsRaw (mockNetIncome input) (mockNetMargin input) (mockLiquidityRatio input)
        (mockOperatingCashFlow input) (mockRunwayMonths input) = [] →
      (buildMockFinancialReport input).strengths =
        ["Statements look complete, enabling quick diagnostics even without AI output."]) ∧
    (mockRisksRaw (mockNetIncome input) (mockNetMargin input) (mockLiquidityRatio input)
        (mockOperatingCashFlow input) (mockRunwayMonths input) (mockTotalDebt input)
        (mockCash input) = [] →
      (buildMockFinancialReport input).risks =
        ["No acute risks detected from the text provided."]) ∧
    (mockRecommendationsRaw (mockNetIncome input) (mockOperatingCashFlow input)
        (mockLiquidityRatio input) (mockRunwayMonths input) (mockTotalDebt input)
        (mockCash input) = [] →
      (buildMockFinancialReport input).recommendations =
        ["Maintain current plan; monitor cash trends monthly to stay ahead of shifts."]) := by
  refine ⟨⟨?_, ?_, ?_⟩, fun h => ?_, fun h => ?_, fun h => ?_⟩
  · rw [buildMock_strengths_eq]
    split_ifs with h
    · simp
    · exact h
  · rw [buildMock_risks_eq]
    split_ifs with h
    · simp
    · exact h
  · rw [buildMock_recommendations_eq]
    split_ifs with h
    · simp
    · exact h
  · rw [buildMock_strengths_eq, if_pos h]
  · rw [buildMock_risks_eq, if_pos h]
  · rw [buildMock_recommendations_eq, if_pos h]

/-- Witness for C2 (amended): on empty statement texts every condition list
is empty and each output list is exactly its fallback sentence. -/
theorem C2_amended_witness :
    (buildMockFinancialReport emptyFinInput).strengths =
      ["Statements look complete, enabling quick diagnostics even without AI output."] ∧
    (buildMockFinancialReport emptyFinInput).risks =
      ["No acute risks detected from the text provided."] ∧
    (buildMockFinancialReport emptyFinInput).recommendations =
      ["Maintain current plan; monitor cash trends monthly to stay ahead of shifts."] :=
  ⟨(C2_amended emptyFinInput).2.1 rfl, (C2_amended emptyFinInput).2.2.1 rfl,
    (C2_amended emptyFinInput).2.2.2 rfl⟩

/-- Counterexample to claim C8 as stated: an explicit resolvable score is
passed through unclamped, so an object sentiment with score 5 yields a
numeric score outside the interval [-1, 1]. -/
theorem C8_counterexample :
    (parseSentimentValue (JsValue.obj [("label", JsValue.str "positive"),
      ("score", JsValue.num 5)])).score = 5 ∧
    ¬((parseSentimentValue (JsValue.obj [("label", JsValue.str "positive"),
      ("score", JsValue.num 5)])).score ≤ 1) := by
  exact ⟨by decide, by decide⟩

/-- Bounds of the three label defaults. -/
theorem defaultSentimentScore_bounds (l : Sentiment) :
    -1 ≤ defaultSentimentScore l ∧ defaultSentimentScore l ≤ 1 := by
  cases l <;> decide

/-- Claim C8 (amended): the label defaults of `parseSentimentValue` are
Positive=0.6, Negative=-0.6 and Neutral=0, and whenever no explicit numeric
score is resolvable the produced score is one of these defaults and lies in
[-1, 1]; an explicit resolvable score is passed through unclamped and may
lie outside that interval. -/
theorem C8_amended :
    defaultSentimentScore Sentiment.Positive = 0.6 ∧
    defaultSentimentScore Sentiment.Negative = -0.6 ∧
    defaultSentimentScore Sentiment.Neutral = 0 ∧
    (∀ value : JsValue, explicitSentimentScore value = none →
      -1 ≤ (parseSentimentValue value).score ∧ (parseSentimentValue value).score ≤ 1) := by
  refine ⟨by decide, by decide, rfl, fun value h => ?_⟩
  cases value with
  | str s =>
    simp only [explicitSentimentScore] at h
    simp only [parseSentimentValue, h, Option.getD_none]
    exact defaultSentimentScore_bounds _
  | obj o =>
    simp only [explicitSentimentScore] at h
    cases hl : getVar o "label" with
    | str lab =>
      simp only [hl] at h
      simp only [parseSentimentValue, hl, h, Option.getD_none]
      exact defaultSentimentScore_bounds _
    | num q =>
      simp only [parseSentimentValue, hl]
      norm_num
    | bool b =>
      simp only [parseSentimentValue, hl]
      norm_num
    | null =>
      simp only [parseSentimentValue, hl]
      norm_num
    | undef =>
      simp only [parseSentimentValue, hl]
      norm_num
    | arr xs =>
      simp only [parseSentimentValue, hl]
      norm_num
    | obj o2 =>
      simp only [parseSentimentValue, hl]
      norm_num
  | num q =>
    simp only [parseSentimentValue]
    norm_num
  | bool b =>
    simp only [parseSentimentValue]
    norm_num
  | null =>
    simp only [parseSentimentValue]
    norm_num
  | undef =>
    simp only [parseSentimentValue]
    norm_num
  | arr xs =>
    simp only [parseSentimentValue]
    norm_num

/-- Witness for C8 (amended) at a string with no numeric substring. -/
theorem C8_amended_witness :
    -1 ≤ (parseSentimentValue (JsValue.str "mostly positive")).score ∧
    (parseSentimentValue (JsValue.str "mostly positive")).score ≤ 1 :=
  C8_amended.2.2.2 (JsValue.str "mostly positive") (by decide)

end NeuralSeek
